import Mathlib

/-!
# Verification of the course-search and favorites logic of `app1.py`

This file gives a shallow embedding of the in-scope logic of the
repository's single source file `app1.py` (a Flask app):

* `z2h` — NFKC text normalization (`app1.py` lines 27-29);
* the search filter construction of the `index` handler (lines 313-358),
  whose `WHERE` clauses use SQLite `LIKE` and `=` comparisons;
* the favorites operations `favorite`, `unfavorite`, `bulk_fav`,
  `clear_favs` and the `mypage` listing (lines 383-440).

External library semantics the code relies on are embedded faithfully:
SQLite's default `LIKE` operator (ASCII-case-insensitive, `%`/`_`
wildcards, no escape character) and the fragments of Python string
methods (`strip`, `endswith`, `replace`, `split`, `isdigit`, `int`) and
of `unicodedata.normalize("NFKC", ·)` that the code applies.
-/

/-- A row of the `courses` table (schema at `app1.py` lines 48-57).
Field names translate the Japanese column names:
`title` = 講義名, `code` = 時間割コード, `term` = 開講時期,
`instructor` = 担当教員, `faculty` = 開講学部, `slot` = 曜日時限,
`evalMethod` = 評価方法. -/
structure Course where
  id : Nat
  title : String
  code : String
  term : String
  instructor : String
  faculty : String
  slot : String
  evalMethod : String
deriving DecidableEq, Repr

/-- The query parameters read by the `index` handler
(`app1.py` lines 318-322): `q`, `faculty`, `term`, `weekday`, `period`. -/
structure SearchArgs where
  q : String
  faculty : String
  term : String
  weekday : String
  period : String
deriving DecidableEq, Repr

/-- Python `str.strip()` as used on every query parameter: drop
whitespace characters from both ends of the string. -/
def pyStrip (s : String) : String :=
  ⟨((s.data.dropWhile Char.isWhitespace).reverse.dropWhile Char.isWhitespace).reverse⟩

/-- One character of `unicodedata.normalize("NFKC", ·)`, modelled over
the repertoire the application's data and queries draw on: the
full-width ASCII-variant block U+FF01–U+FF5E folds to U+0021–U+007E
(this includes full-width digits, letters, `％`, `＿` and the full-width
hyphen-minus `－`), the ideographic space U+3000 folds to the plain
space; all other characters (kanji, kana, ASCII, en/em dashes) are
fixed.  NFKC mappings outside this repertoire (e.g. half-width katakana
composition) are out of the model. -/
def nfkcChar (c : Char) : Char :=
  if h : 0xFF01 ≤ c.toNat ∧ c.toNat ≤ 0xFF5E then
    Char.ofNatAux (c.toNat - 0xFEE0) (Or.inl (by omega))
  else if c.toNat = 0x3000 then ' '
  else c

/-- `z2h` (`app1.py` lines 27-29):
`unicodedata.normalize("NFKC", s) if s else s`.  The empty string is
falsy in Python, so it is returned unchanged; otherwise the string is
NFKC-normalized character by character. -/
def z2h (s : String) : String :=
  if s.data.isEmpty then s else ⟨s.data.map nfkcChar⟩

/-- `z2h` lifted to optional input: Python `z2h(None)` returns `None`
because `None` is falsy. -/
def z2hOpt : Option String → Option String
  | none => none
  | some s => some (z2h s)

/-- The case folding of SQLite's default `LIKE`: only the ASCII letters
`a`-`z` are folded (to upper case); all other characters, including
non-ASCII ones, compare exactly. -/
def likeFold (c : Char) : Char :=
  if h : 0x61 ≤ c.toNat ∧ c.toNat ≤ 0x7A then
    Char.ofNatAux (c.toNat - 0x20) (Or.inl (by omega))
  else c

/-- SQLite `LIKE` pattern matching (default behaviour, no `ESCAPE`):
`%` matches any sequence of zero or more characters (embedded as: some
suffix of the text matches the rest of the pattern), `_` matches any
single character, and any other pattern character matches a single text
character up to ASCII case folding. -/
def likeMatch : List Char → List Char → Bool
  | [], s => s.isEmpty
  | p :: ps, s =>
    if p = '%' then s.tails.any (likeMatch ps)
    else
      match s with
      | [] => false
      | c :: s' => (if p = '_' then true else likeFold p == likeFold c) && likeMatch ps s'

/-- `field LIKE '%tok%'` — the keyword and period clauses
(`app1.py` lines 332-335 and 349-351). -/
def likeContains (tok s : String) : Bool :=
  likeMatch ('%' :: (tok.data ++ ['%'])) s.data

/-- `field LIKE 'tok%'` — the weekday clause (`app1.py` lines 345-347). -/
def likePrefix (tok s : String) : Bool :=
  likeMatch (tok.data ++ ['%']) s.data

/-- Python single-character `str.replace(a, b)` as used on the period
parameter: substitute every occurrence of the character `a` by `b`. -/
def replace1 (a b : Char) (s : String) : String :=
  ⟨s.data.map (fun c => if c = a then b else c)⟩

/-- The period clean-up of `index` (`app1.py` lines 324-327): strip a
single trailing `限` (`period.endswith("限")` / `period[:-1]`), then
replace the full-width hyphen `－`, the em dash `—` and the en dash `–`
by `-`, in that order. -/
def normPeriod (s : String) : String :=
  let s1 := if s.data.getLast? = some '限' then ⟨s.data.dropLast⟩ else s
  replace1 '–' '-' (replace1 '—' '-' (replace1 '－' '-' s1))

/-- The keyword clause: absent (empty) keyword imposes no condition,
otherwise `讲義名 LIKE '%q%' OR 担当教員 LIKE '%q%' OR 評価方法 LIKE '%q%'`
(`app1.py` lines 332-335). -/
def kwFilter (q : String) (c : Course) : Bool :=
  q.data.isEmpty || (likeContains q c.title || likeContains q c.instructor ||
    likeContains q c.evalMethod)

/-- The faculty clause: `開講学部 = ?` when provided (`app1.py` lines 337-339). -/
def facFilter (f : String) (c : Course) : Bool :=
  f.data.isEmpty || (c.faculty == f)

/-- The term clause: `開講時期 = ?` when provided (`app1.py` lines 341-343). -/
def termFilter (t : String) (c : Course) : Bool :=
  t.data.isEmpty || (c.term == t)

/-- The weekday clause: `曜日時限 LIKE 'weekday%'` when provided
(`app1.py` lines 345-347). -/
def wdFilter (w : String) (c : Course) : Bool :=
  w.data.isEmpty || likePrefix w c.slot

/-- The period clause: `曜日時限 LIKE '%period%'` when provided
(`app1.py` lines 349-351). -/
def pdFilter (p : String) (c : Course) : Bool :=
  p.data.isEmpty || likeContains p c.slot

/-- The normalized keyword: `z2h(request.args.get("q","").strip())`
(`app1.py` line 318). -/
def normQ (a : SearchArgs) : String := z2h (pyStrip a.q)

/-- The fully processed period token: strip, `z2h`, then `normPeriod`
(`app1.py` lines 322-327). -/
def normPd (a : SearchArgs) : String := normPeriod (z2h (pyStrip a.period))

/-- The conjunction of all provided filter clauses — the `WHERE` clause
assembled by `index` (`app1.py` lines 329-355).  Clauses are appended in
source order: keyword, faculty, term, weekday, period, joined by `AND`. -/
def matchesFilters (a : SearchArgs) (c : Course) : Bool :=
  kwFilter (normQ a) c && facFilter (pyStrip a.faculty) c &&
    termFilter (pyStrip a.term) c && wdFilter (pyStrip a.weekday) c &&
    pdFilter (normPd a) c

/-- The sort key of `ORDER BY 開講学部, 開講時期, 曜日時限, 講義名`
(`app1.py` line 356): the quadruple (faculty, term, slot, title)
compared lexicographically, each component by SQLite's `BINARY`
collation, i.e. plain code-point (UTF-8 byte) order, which is Lean's
`String` order. -/
def courseKeyL (c : Course) : Lex (String × Lex (String × Lex (String × String))) :=
  toLex (c.faculty, toLex (c.term, toLex (c.slot, c.title)))

/-- The row order produced by the `ORDER BY` clause: ascending on
`courseKeyL`. -/
def courseLe (a b : Course) : Prop :=
  courseKeyL a ≤ courseKeyL b

instance : DecidableRel courseLe := fun a b =>
  inferInstanceAs (Decidable (courseKeyL a ≤ courseKeyL b))

instance : IsTotal Course courseLe :=
  ⟨fun a b => le_total (courseKeyL a) (courseKeyL b)⟩

instance : IsTrans Course courseLe :=
  ⟨fun _ _ _ hab hbc => le_trans hab hbc⟩

/-- The course list produced by `index` for a given catalog and query
(`app1.py` lines 353-358): filter by the assembled `WHERE` clause, then
sort by `ORDER BY 開講学部, 開講時期, 曜日時限, 講義名`. -/
def searchResult (catalog : List Course) (a : SearchArgs) : List Course :=
  List.insertionSort courseLe (catalog.filter (matchesFilters a))

/-- A `SearchArgs` with every field absent. -/
def emptyArgs : SearchArgs := ⟨"", "", "", "", ""⟩

/-- Search request with only the keyword populated. -/
def qOnly (q : String) : SearchArgs := ⟨q, "", "", "", ""⟩

/-- Search request with only the period populated. -/
def pdOnly (p : String) : SearchArgs := ⟨"", "", "", "", p⟩

/-- Search request with only the weekday populated. -/
def wdOnly (w : String) : SearchArgs := ⟨"", "", "", w, ""⟩

/-- The favorites store: the list of `course_id` values of the rows of
the `favorites` table, in insertion order.  The schema (`app1.py` lines
59-63) declares `UNIQUE(course_id)`. -/
abbrev FavState := List Nat

/-- The `favorite` handler (`app1.py` lines 383-392):
`INSERT OR IGNORE INTO favorites(course_id) VALUES (?)` — appends a row
unless one with this `course_id` already exists (the `UNIQUE` constraint
makes the insert a no-op then). -/
def favAdd (favs : FavState) (courseId : Nat) : FavState :=
  if favs.contains courseId then favs else favs ++ [courseId]

/-- The `unfavorite` handler (`app1.py` lines 394-400):
`DELETE FROM favorites WHERE course_id=?`. -/
def favRemove (favs : FavState) (courseId : Nat) : FavState :=
  favs.filter (fun f => f != courseId)

/-- The `clear_favs` handler (`app1.py` lines 434-440):
`DELETE FROM favorites`. -/
def favClear (_favs : FavState) : FavState := []

/-- Python `str.isdigit()` over the decimal digits the app can meet:
non-empty and every character an ASCII (`0`-`9`) or full-width
(`０`-`９`) decimal digit.  (Other Unicode digit-like characters are out
of the model.) -/
def pyIsDigit (t : List Char) : Bool :=
  !t.isEmpty && t.all (fun c =>
    (0x30 ≤ c.toNat && c.toNat ≤ 0x39) || (0xFF10 ≤ c.toNat && c.toNat ≤ 0xFF19))

/-- The numeric value of a decimal digit character (ASCII or full-width),
as Python `int` assigns it. -/
def digitVal (c : Char) : Nat :=
  if 0xFF10 ≤ c.toNat then c.toNat - 0xFF10 else c.toNat - 0x30

/-- Python `int(t)` on a string of decimal digits. -/
def pyInt (t : List Char) : Nat :=
  t.foldl (fun n c => 10 * n + digitVal c) 0

/-- The id list built by `bulk_fav` (`app1.py` line 408):
`[int(x) for x in ids.split(",") if x.isdigit()]`. -/
def parseIds (ids : String) : List Nat :=
  ((ids.data.splitOn ',').filter pyIsDigit).map pyInt

/-- The `bulk_fav` handler (`app1.py` lines 402-413): strip the `ids`
form field; if empty, change nothing and report no count (the handler
flashes a "nothing selected" message instead); otherwise insert every
well-formed id in order with `INSERT OR IGNORE` and report
`len(id_list)` as the processed count. -/
def bulkFav (ids : String) (favs : FavState) : FavState × Option Nat :=
  let s := pyStrip ids
  if s.data.isEmpty then (favs, none)
  else ((parseIds s).foldl favAdd favs, some (parseIds s).length)

/-- One user-visible favorites operation. -/
inductive FavOp where
  | add (courseId : Nat)
  | remove (courseId : Nat)
  | bulk (ids : String)
  | clear
deriving DecidableEq, Repr

/-- Interpretation of a favorites operation on the store. -/
def applyOp (favs : FavState) : FavOp → FavState
  | FavOp.add courseId => favAdd favs courseId
  | FavOp.remove courseId => favRemove favs courseId
  | FavOp.bulk ids => (bulkFav ids favs).1
  | FavOp.clear => favClear favs

/-- A whole sequence of favorites operations, applied left to right. -/
def applyOps (favs : FavState) (ops : List FavOp) : FavState :=
  ops.foldl applyOp favs

/-- The join of the `mypage` handler (`app1.py` lines 418-424):
`SELECT c.* FROM courses c JOIN favorites f ON f.course_id = c.id` —
one output row per (course, favorite) pair with matching id. -/
def joinFavs (catalog : List Course) (favs : FavState) : List Course :=
  catalog.flatMap (fun c => (favs.filter (fun f => f == c.id)).map (fun _ => c))

/-- The course list rendered by `mypage` (`app1.py` lines 415-432): the
favorites joined with the courses, ordered by the same
`ORDER BY 開講学部, 開講時期, 曜日時限, 講義名` as the search. -/
def mypageRows (catalog : List Course) (favs : FavState) : List Course :=
  List.insertionSort courseLe (joinFavs catalog favs)

/-- The `total` count rendered by `mypage` (`app1.py` line 431):
`len(rows)`. -/
def mypageTotal (catalog : List Course) (favs : FavState) : Nat :=
  (mypageRows catalog favs).length


/-- "Starts with the token" as the spec words it: the token's characters
are a prefix of the field's characters. -/
def specStartsWith (tok s : String) : Bool :=
  decide (tok.data <+: s.data)

/-- "Contains the token as a literal substring" as the spec words it:
the token's characters occur contiguously inside the field's
characters. -/
def specContains (tok s : String) : Bool :=
  decide (tok.data <:+: s.data)

/-- The keyword match as the spec words it (case-sensitive exact
substring match of the normalized keyword against title, instructor and
evaluation method). -/
def specKwMatch (q : String) (c : Course) : Bool :=
  specContains q c.title || specContains q c.instructor || specContains q c.evalMethod

/-- One of the five filter fields of a search request. -/
inductive FilterField where
  | q
  | faculty
  | term
  | weekday
  | period
deriving DecidableEq, Repr

/-- Populate one field of a search request. -/
def setField (a : SearchArgs) : FilterField → String → SearchArgs
  | FilterField.q, v => ⟨v, a.faculty, a.term, a.weekday, a.period⟩
  | FilterField.faculty, v => ⟨a.q, v, a.term, a.weekday, a.period⟩
  | FilterField.term, v => ⟨a.q, a.faculty, v, a.weekday, a.period⟩
  | FilterField.weekday, v => ⟨a.q, a.faculty, a.term, v, a.period⟩
  | FilterField.period, v => ⟨a.q, a.faculty, a.term, a.weekday, v⟩

/-- Read one field of a search request. -/
def getField (a : SearchArgs) : FilterField → String
  | FilterField.q => a.q
  | FilterField.faculty => a.faculty
  | FilterField.term => a.term
  | FilterField.weekday => a.weekday
  | FilterField.period => a.period

/-- A fixture course with an ASCII title, meeting Monday periods 3-4. -/
def mathCourse : Course :=
  ⟨1, "Math", "A001", "春", "鈴木", "経営", "月3-4", "レポート"⟩

/-- A fixture course meeting Monday period 3. -/
def bokiCourse : Course :=
  ⟨2, "簿記", "B001", "春", "田中", "経済", "月3", "試験"⟩

/-- A fixture course meeting Tuesday periods 3-4. -/
def tueCourse : Course :=
  ⟨3, "会計学", "C001", "秋", "佐藤", "経済", "火3-4", "試験"⟩

/-! ## Helper lemmas -/

theorem toNat_nfkcChar_of_wide (c : Char) (h : 0xFF01 ≤ c.toNat ∧ c.toNat ≤ 0xFF5E) :
    (nfkcChar c).toNat = c.toNat - 0xFEE0 := by
  unfold nfkcChar
  rw [dif_pos h]
  rfl

theorem nfkcChar_fix (c : Char) (h1 : ¬(0xFF01 ≤ c.toNat ∧ c.toNat ≤ 0xFF5E))
    (h2 : c.toNat ≠ 0x3000) : nfkcChar c = c := by
  unfold nfkcChar
  rw [dif_neg h1, if_neg h2]

theorem nfkcChar_idem (c : Char) : nfkcChar (nfkcChar c) = nfkcChar c := by
  by_cases h : 0xFF01 ≤ c.toNat ∧ c.toNat ≤ 0xFF5E
  · have ht : (nfkcChar c).toNat = c.toNat - 0xFEE0 := toNat_nfkcChar_of_wide c h
    exact nfkcChar_fix _ (by omega) (by omega)
  · by_cases h2 : c.toNat = 0x3000
    · have hs : nfkcChar c = ' ' := by unfold nfkcChar; rw [dif_neg h, if_pos h2]
      rw [hs]
      exact nfkcChar_fix _ (by decide) (by decide)
    · rw [nfkcChar_fix c h h2, nfkcChar_fix c h h2]

theorem data_z2h (s : String) : (z2h s).data = s.data.map nfkcChar := by
  unfold z2h
  by_cases h : s.data.isEmpty
  · rw [if_pos h]
    rw [List.isEmpty_iff] at h
    rw [h]
    rfl
  · rw [if_neg h]

theorem z2h_idem (s : String) : z2h (z2h s) = z2h s := by
  apply String.ext
  rw [data_z2h, data_z2h, List.map_map]
  exact List.map_congr_left (fun c _ => nfkcChar_idem c)

/-- `likeFold` fixes every character outside the ASCII lower-case range. -/
theorem likeFold_fix (c : Char) (h : ¬(0x61 ≤ c.toNat ∧ c.toNat ≤ 0x7A)) :
    likeFold c = c := by
  unfold likeFold
  rw [dif_neg h]

theorem toNat_likeFold_low (c : Char) (h : 0x61 ≤ c.toNat ∧ c.toNat ≤ 0x7A) :
    (likeFold c).toNat = c.toNat - 0x20 := by
  unfold likeFold
  rw [dif_pos h]
  rfl

/-- For a pattern character above the ASCII range, `likeFold`-equality
is plain equality. -/
theorem likeFold_eq_iff (k c : Char) (hk : 127 < k.toNat) :
    likeFold c = likeFold k ↔ c = k := by
  have hkf : likeFold k = k := likeFold_fix k (by omega)
  rw [hkf]
  by_cases hc : 0x61 ≤ c.toNat ∧ c.toNat ≤ 0x7A
  · have ht : (likeFold c).toNat = c.toNat - 0x20 := toNat_likeFold_low c hc
    constructor
    · intro h
      have := congrArg Char.toNat h
      omega
    · intro h
      subst h
      omega
  · rw [likeFold_fix c hc]

theorem likeMatch_star (ps : List Char) (s : List Char) :
    likeMatch ('%' :: ps) s = s.tails.any (likeMatch ps) := rfl

theorem likeMatch_cons_nil (p : Char) (ps : List Char) (hp : p ≠ '%') :
    likeMatch (p :: ps) [] = false := by
  rw [likeMatch.eq_def]
  simp only [if_neg hp]

theorem likeMatch_cons_cons (p : Char) (ps : List Char) (hp : p ≠ '%')
    (c : Char) (s' : List Char) :
    likeMatch (p :: ps) (c :: s') =
      ((if p = '_' then true else likeFold p == likeFold c) && likeMatch ps s') := by
  rw [likeMatch.eq_def]
  simp only [if_neg hp]

/-- A bare `%` pattern matches every string. -/
theorem likeMatch_pct (s : List Char) : likeMatch ['%'] s = true := by
  rw [likeMatch_star, List.any_eq_true]
  exact ⟨[], (List.mem_tails _ _).mpr (List.nil_suffix (l := s)), rfl⟩

/-- `LIKE 'k%'` for a single character `k` above the ASCII range is
exactly "starts with `k`". -/
theorem likeMatch_single_prefix (k : Char) (hk : 127 < k.toNat) (s : List Char) :
    likeMatch [k, '%'] s = decide ([k] <+: s) := by
  have hkp : k ≠ '%' := by
    rintro rfl
    revert hk
    decide
  have hku : k ≠ '_' := by
    rintro rfl
    revert hk
    decide
  cases s with
  | nil =>
    rw [likeMatch_cons_nil k ['%'] hkp]
    simp
  | cons c s' =>
    rw [likeMatch_cons_cons k ['%'] hkp, if_neg hku, likeMatch_pct, Bool.and_true]
    by_cases h : c = k
    · subst h
      simp [List.cons_prefix_cons]
    · have h1 : likeFold k ≠ likeFold c := fun he =>
        h ((likeFold_eq_iff k c hk).mp he.symm)
      have h2 : ¬(k = c) := fun he => h he.symm
      simp [List.cons_prefix_cons, h1, h2]

/-- Membership in the search result: filtered by the `WHERE` clause,
reordered but not changed by `ORDER BY`. -/
theorem mem_searchResult (catalog : List Course) (a : SearchArgs) (c : Course) :
    c ∈ searchResult catalog a ↔ c ∈ catalog ∧ matchesFilters a c = true := by
  unfold searchResult
  rw [(List.perm_insertionSort courseLe _).mem_iff, List.mem_filter]

/-- Membership in the `mypage` join. -/
theorem mem_joinFavs (catalog : List Course) (favs : FavState) (c : Course) :
    c ∈ joinFavs catalog favs ↔ c ∈ catalog ∧ c.id ∈ favs := by
  unfold joinFavs
  rw [List.mem_flatMap]
  constructor
  · rintro ⟨a, ha, hmem⟩
    rw [List.mem_map] at hmem
    obtain ⟨f, hf, rfl⟩ := hmem
    rw [List.mem_filter] at hf
    obtain ⟨hfav, hbeq⟩ := hf
    rw [beq_iff_eq] at hbeq
    exact ⟨ha, hbeq ▸ hfav⟩
  · rintro ⟨hcat, hfav⟩
    refine ⟨c, hcat, ?_⟩
    rw [List.mem_map]
    exact ⟨c.id, List.mem_filter.mpr ⟨hfav, beq_iff_eq.mpr rfl⟩, rfl⟩

theorem mem_mypageRows (catalog : List Course) (favs : FavState) (c : Course) :
    c ∈ mypageRows catalog favs ↔ c ∈ catalog ∧ c.id ∈ favs := by
  unfold mypageRows
  rw [(List.perm_insertionSort courseLe _).mem_iff, mem_joinFavs]

theorem mem_favAdd_self (favs : FavState) (i : Nat) : i ∈ favAdd favs i := by
  unfold favAdd
  by_cases h : favs.contains i
  · rw [if_pos h]
    simpa using h
  · rw [if_neg h]
    simp

theorem favAdd_idem (favs : FavState) (i : Nat) :
    favAdd (favAdd favs i) i = favAdd favs i := by
  unfold favAdd
  by_cases h : favs.contains i
  · rw [if_pos h, if_pos h]
  · rw [if_neg h]
    rw [if_pos (by simp)]

theorem favAdd_nodup (favs : FavState) (i : Nat) (h : favs.Nodup) :
    (favAdd favs i).Nodup := by
  unfold favAdd
  by_cases hc : favs.contains i
  · rw [if_pos hc]
    exact h
  · rw [if_neg hc]
    have hm : i ∉ favs := by
      simpa using hc
    simp [List.nodup_append, h, hm]

theorem foldl_favAdd_nodup (ids : List Nat) (favs : FavState) (h : favs.Nodup) :
    (ids.foldl favAdd favs).Nodup := by
  induction ids generalizing favs with
  | nil => exact h
  | cons i rest ih =>
    rw [List.foldl_cons]
    exact ih _ (favAdd_nodup favs i h)

theorem bulkFav_fst (ids : String) (favs : FavState) :
    (bulkFav ids favs).1 = (parseIds (pyStrip ids)).foldl favAdd favs := by
  unfold bulkFav
  by_cases he : (pyStrip ids).data.isEmpty
  · rw [List.isEmpty_iff] at he
    simp only [he, List.isEmpty_nil, if_pos]
    unfold parseIds
    rw [he]
    rfl
  · simp only [Bool.not_eq_true] at he
    simp only [he, Bool.false_eq_true, if_false]

theorem applyOp_nodup (favs : FavState) (op : FavOp) (h : favs.Nodup) :
    (applyOp favs op).Nodup := by
  cases op with
  | add i => exact favAdd_nodup favs i h
  | remove i => exact h.filter _
  | bulk ids =>
    have hb : applyOp favs (FavOp.bulk ids) = (bulkFav ids favs).1 := rfl
    rw [hb, bulkFav_fst]
    exact foldl_favAdd_nodup _ favs h
  | clear => exact List.nodup_nil

theorem applyOps_nodup (favs : FavState) (ops : List FavOp) (h : favs.Nodup) :
    (applyOps favs ops).Nodup := by
  induction ops generalizing favs with
  | nil => exact h
  | cons op rest ih =>
    unfold applyOps
    rw [List.foldl_cons]
    exact ih _ (applyOp_nodup favs op h)

/-- The explicit reading of the `ORDER BY` relation: ascending by
faculty, then term, then weekday/period slot, then title. -/
theorem courseLe_iff (a b : Course) :
    courseLe a b ↔
      a.faculty < b.faculty ∨ (a.faculty = b.faculty ∧
        (a.term < b.term ∨ (a.term = b.term ∧
          (a.slot < b.slot ∨ (a.slot = b.slot ∧ a.title ≤ b.title))))) := by
  simp [courseLe, courseKeyL, Prod.Lex.le_iff]

/-- A request with every field empty filters nothing. -/
theorem matchesFilters_empty (c : Course) : matchesFilters emptyArgs c = true := rfl

theorem isEmpty_data_eq_false_of_ne (s : String) (h : s ≠ "") :
    s.data.isEmpty = false := by
  rw [List.isEmpty_eq_false]
  intro hn
  exact h (String.ext (by rw [hn]))

/-- With only the keyword populated, the `WHERE` clause is exactly the
three-way `LIKE '%q%'` disjunction over title, instructor and
evaluation method. -/
theorem matchesFilters_qOnly (q : String) (c : Course)
    (h : z2h (pyStrip q) ≠ "") :
    matchesFilters (qOnly q) c =
      (likeContains (z2h (pyStrip q)) c.title ||
        likeContains (z2h (pyStrip q)) c.instructor ||
        likeContains (z2h (pyStrip q)) c.evalMethod) := by
  show (kwFilter (normQ (qOnly q)) c && facFilter (pyStrip "") c &&
      termFilter (pyStrip "") c && wdFilter (pyStrip "") c &&
      pdFilter (normPd (qOnly q)) c) = _
  have hfac : facFilter (pyStrip "") c = true := rfl
  have hterm : termFilter (pyStrip "") c = true := rfl
  have hwd : wdFilter (pyStrip "") c = true := rfl
  have hpd : pdFilter (normPd (qOnly q)) c = true := rfl
  rw [hfac, hterm, hwd, hpd, Bool.and_true, Bool.and_true, Bool.and_true, Bool.and_true]
  show kwFilter (z2h (pyStrip q)) c = _
  unfold kwFilter
  rw [isEmpty_data_eq_false_of_ne _ h, Bool.false_or]

/-- With only the period populated, the `WHERE` clause is exactly
`曜日時限 LIKE '%period%'` for the cleaned-up period token. -/
theorem matchesFilters_pdOnly (p : String) (c : Course)
    (h : normPeriod (z2h (pyStrip p)) ≠ "") :
    matchesFilters (pdOnly p) c =
      likeContains (normPeriod (z2h (pyStrip p))) c.slot := by
  show (kwFilter (normQ (pdOnly p)) c && facFilter (pyStrip "") c &&
      termFilter (pyStrip "") c && wdFilter (pyStrip "") c &&
      pdFilter (normPd (pdOnly p)) c) = _
  have hkw : kwFilter (normQ (pdOnly p)) c = true := rfl
  have hfac : facFilter (pyStrip "") c = true := rfl
  have hterm : termFilter (pyStrip "") c = true := rfl
  have hwd : wdFilter (pyStrip "") c = true := rfl
  rw [hkw, hfac, hterm, hwd, Bool.true_and, Bool.true_and, Bool.true_and, Bool.true_and]
  show pdFilter (normPeriod (z2h (pyStrip p))) c = _
  unfold pdFilter
  rw [isEmpty_data_eq_false_of_ne _ h, Bool.false_or]

/-- For a weekday token that is a single character above the ASCII
range (left fixed by `strip`), the weekday-only search selects exactly
the courses whose slot starts with that token. -/
theorem wdOnly_single (tok : String) (k : Char) (hk : 127 < k.toNat)
    (htok : tok.data = [k]) (hstrip : pyStrip tok = tok)
    (cat : List Course) (c : Course) :
    c ∈ searchResult cat (wdOnly tok) ↔
      c ∈ cat ∧ specStartsWith tok c.slot = true := by
  rw [mem_searchResult]
  apply and_congr_right'
  suffices hm : matchesFilters (wdOnly tok) c = specStartsWith tok c.slot by rw [hm]
  show (kwFilter (normQ (wdOnly tok)) c && facFilter (pyStrip "") c &&
      termFilter (pyStrip "") c && wdFilter (pyStrip tok) c &&
      pdFilter (normPd (wdOnly tok)) c) = _
  have hkw : kwFilter (normQ (wdOnly tok)) c = true := rfl
  have hfac : facFilter (pyStrip "") c = true := rfl
  have hterm : termFilter (pyStrip "") c = true := rfl
  have hpd : pdFilter (normPd (wdOnly tok)) c = true := rfl
  rw [hkw, hfac, hterm, hpd, Bool.true_and, Bool.true_and, Bool.true_and, Bool.and_true,
    hstrip]
  unfold wdFilter likePrefix specStartsWith
  rw [htok]
  have hne : ([k].isEmpty : Bool) = false := rfl
  rw [hne, Bool.false_or]
  exact likeMatch_single_prefix k hk c.slot.data

theorem kwFilter_of_empty (a : SearchArgs) (h : a.q = "") (c : Course) :
    kwFilter (normQ a) c = true := by
  unfold normQ
  rw [h]
  rfl

theorem facFilter_of_empty (a : SearchArgs) (h : a.faculty = "") (c : Course) :
    facFilter (pyStrip a.faculty) c = true := by
  rw [h]
  rfl

theorem termFilter_of_empty (a : SearchArgs) (h : a.term = "") (c : Course) :
    termFilter (pyStrip a.term) c = true := by
  rw [h]
  rfl

theorem wdFilter_of_empty (a : SearchArgs) (h : a.weekday = "") (c : Course) :
    wdFilter (pyStrip a.weekday) c = true := by
  rw [h]
  rfl

theorem pdFilter_of_empty (a : SearchArgs) (h : a.period = "") (c : Course) :
    pdFilter (normPd a) c = true := by
  unfold normPd
  rw [h]
  rfl

/-! ## Claims -/

/-- C1 (counterexample): the keyword search is not a case-sensitive
exact substring match.  With the catalog `[mathCourse]` (title "Math")
and keyword "math", the code returns the course (SQLite `LIKE` compares
ASCII letters case-insensitively), while "math" is not a substring of
any of the course's normalized title, instructor or evaluation-method
fields. -/
theorem keyword_not_case_sensitive_cex :
    searchResult [mathCourse] (qOnly "math") = [mathCourse]
    ∧ specKwMatch (z2h (pyStrip "math")) mathCourse = false :=
  ⟨by decide, by decide⟩

/-- C1 (amended): for every search request with only the keyword
populated and non-empty after normalization, the search returns exactly
the courses where title OR instructor OR evaluation-method matches the
SQLite pattern `'%keyword%'` — substring matching that compares ASCII
letters case-insensitively and treats `%` and `_` in the keyword as
wildcards. -/
theorem keyword_search_like (cat : List Course) (q : String) (c : Course)
    (h : z2h (pyStrip q) ≠ "") :
    c ∈ searchResult cat (qOnly q) ↔
      c ∈ cat ∧
        (likeContains (z2h (pyStrip q)) c.title ||
          likeContains (z2h (pyStrip q)) c.instructor ||
          likeContains (z2h (pyStrip q)) c.evalMethod) = true := by
  rw [mem_searchResult, matchesFilters_qOnly q c h]

theorem keyword_search_like_witness :
    z2h (pyStrip "Math") ≠ ""
    ∧ (mathCourse ∈ searchResult [mathCourse] (qOnly "Math") ↔
        mathCourse ∈ [mathCourse] ∧
          (likeContains (z2h (pyStrip "Math")) mathCourse.title ||
            likeContains (z2h (pyStrip "Math")) mathCourse.instructor ||
            likeContains (z2h (pyStrip "Math")) mathCourse.evalMethod) = true) :=
  ⟨by decide, keyword_search_like [mathCourse] "Math" mathCourse (by decide)⟩

/-- C2 (counterexample): the processed period token does not select by
literal substring.  For the raw period "_" the clean-up pipeline leaves
the token "_", and with catalog `[bokiCourse]` (slot "月3") the code
returns the course (`_` is a single-character wildcard in SQLite
`LIKE`), while "_" does not occur literally in the slot "月3". -/
theorem period_not_literal_substring_cex :
    normPeriod (z2h (pyStrip "_")) = "_"
    ∧ searchResult [bokiCourse] (pdOnly "_") = [bokiCourse]
    ∧ specContains "_" bokiCourse.slot = false :=
  ⟨by decide, by decide, by decide⟩

/-- C2 (amended): for every search request with only the period
populated, the period is stripped, normalized, a single trailing `限`
dropped and the dash glyphs `－`/`—`/`–` folded to `-`; if the
resulting token is non-empty it selects exactly the courses whose
weekday/period field matches the SQLite pattern `'%token%'` (substring
matching with `%`/`_` wildcards and ASCII-case-insensitive letters);
the computation is total, so malformed period text degrades to this
`LIKE` match instead of failing. -/
theorem period_search_like (cat : List Course) (p : String) (c : Course)
    (h : normPeriod (z2h (pyStrip p)) ≠ "") :
    c ∈ searchResult cat (pdOnly p) ↔
      c ∈ cat ∧ likeContains (normPeriod (z2h (pyStrip p))) c.slot = true := by
  rw [mem_searchResult, matchesFilters_pdOnly p c h]

theorem period_search_like_witness :
    normPeriod (z2h (pyStrip "３限")) ≠ ""
    ∧ (mathCourse ∈ searchResult [mathCourse] (pdOnly "３限") ↔
        mathCourse ∈ [mathCourse] ∧
          likeContains (normPeriod (z2h (pyStrip "３限"))) mathCourse.slot = true) :=
  ⟨by decide, period_search_like [mathCourse] "３限" mathCourse (by decide)⟩

/-- C3: filters combine by logical AND; populating one additional field
of a request never enlarges the result set; and a request with no
filters returns every course of the catalog. -/
theorem filters_monotone_and (cat : List Course) (a : SearchArgs)
    (f : FilterField) (v : String) (hf : getField a f = "") :
    (∀ c, c ∈ searchResult cat (setField a f v) → c ∈ searchResult cat a)
    ∧ (∀ c, c ∈ searchResult cat emptyArgs ↔ c ∈ cat)
    ∧ (∀ c, matchesFilters a c =
        (kwFilter (normQ a) c && facFilter (pyStrip a.faculty) c &&
          termFilter (pyStrip a.term) c && wdFilter (pyStrip a.weekday) c &&
          pdFilter (normPd a) c)) := by
  refine ⟨?_, ?_, fun c => rfl⟩
  · intro c hc
    rw [mem_searchResult] at hc ⊢
    obtain ⟨hcat, hm⟩ := hc
    refine ⟨hcat, ?_⟩
    cases f with
    | q =>
      simp only [matchesFilters, setField, Bool.and_eq_true] at hm ⊢
      exact ⟨⟨⟨⟨kwFilter_of_empty a hf c, hm.1.1.1.2⟩, hm.1.1.2⟩, hm.1.2⟩, hm.2⟩
    | faculty =>
      simp only [matchesFilters, setField, Bool.and_eq_true] at hm ⊢
      exact ⟨⟨⟨⟨hm.1.1.1.1, facFilter_of_empty a hf c⟩, hm.1.1.2⟩, hm.1.2⟩, hm.2⟩
    | term =>
      simp only [matchesFilters, setField, Bool.and_eq_true] at hm ⊢
      exact ⟨⟨⟨⟨hm.1.1.1.1, hm.1.1.1.2⟩, termFilter_of_empty a hf c⟩, hm.1.2⟩, hm.2⟩
    | weekday =>
      simp only [matchesFilters, setField, Bool.and_eq_true] at hm ⊢
      exact ⟨⟨⟨⟨hm.1.1.1.1, hm.1.1.1.2⟩, hm.1.1.2⟩, wdFilter_of_empty a hf c⟩, hm.2⟩
    | period =>
      simp only [matchesFilters, setField, Bool.and_eq_true] at hm ⊢
      exact ⟨⟨⟨⟨hm.1.1.1.1, hm.1.1.1.2⟩, hm.1.1.2⟩, hm.1.2⟩, pdFilter_of_empty a hf c⟩
  · intro c
    rw [mem_searchResult]
    simp [matchesFilters_empty]

theorem filters_monotone_and_witness :
    getField emptyArgs FilterField.q = ""
    ∧ (mathCourse ∈ searchResult [mathCourse] (setField emptyArgs FilterField.q "Math") →
        mathCourse ∈ searchResult [mathCourse] emptyArgs) :=
  ⟨by decide,
    (filters_monotone_and [mathCourse] emptyArgs FilterField.q "Math" (by decide)).1 mathCourse⟩

/-- C4: `bulk_fav` keeps exactly the comma-separated tokens that are
well-formed integers, applies the idempotent insert to each kept id in
order, and reports the number of well-formed ids as its processed
count; `bulk_add("1,2,abc,3")` processes 1, 2, 3 and ignores "abc", and
an empty input changes no favorites. -/
theorem bulk_add_wellformed (s : String) (favs : FavState) :
    (bulkFav s favs).1 = (parseIds (pyStrip s)).foldl favAdd favs
    ∧ parseIds (pyStrip s) =
        (((pyStrip s).data.splitOn ',').filter pyIsDigit).map pyInt
    ∧ ((pyStrip s).data.isEmpty = false →
        (bulkFav s favs).2 = some (parseIds (pyStrip s)).length)
    ∧ bulkFav "1,2,abc,3" favs = (favAdd (favAdd (favAdd favs 1) 2) 3, some 3)
    ∧ (bulkFav "" favs).1 = favs := by
  refine ⟨bulkFav_fst s favs, rfl, ?_, rfl, rfl⟩
  intro h
  unfold bulkFav
  simp only [h, Bool.false_eq_true, if_false]

theorem bulk_add_wellformed_witness :
    (pyStrip "1,2,abc,3").data.isEmpty = false
    ∧ (bulkFav "1,2,abc,3" [9]).2 = some (parseIds (pyStrip "1,2,abc,3")).length :=
  ⟨by decide, (bulk_add_wellformed "1,2,abc,3" [9]).2.2.1 (by decide)⟩

/-- C5: starting from a favorites store with at most one row per course
id, any sequence of add / remove / bulk-add / clear operations keeps at
most one row per course id, and `add` is idempotent: adding the same id
twice equals adding it once. -/
theorem favorites_add_idempotent (s : FavState) (ops : List FavOp) (i : Nat)
    (h : s.Nodup) :
    (applyOps s ops).Nodup ∧ favAdd (favAdd s i) i = favAdd s i :=
  ⟨applyOps_nodup s ops h, favAdd_idem s i⟩

theorem favorites_add_idempotent_witness :
    ([] : FavState).Nodup
    ∧ ((applyOps [] [FavOp.add 1, FavOp.add 1]).Nodup
        ∧ favAdd (favAdd [] 1) 1 = favAdd [] 1) :=
  ⟨by decide, favorites_add_idempotent [] [FavOp.add 1, FavOp.add 1] 1 (by decide)⟩

/-- C6: the text normalizer `z2h` is idempotent, returns empty input
unchanged, returns absent (`None`) input unchanged, and is a total
function. -/
theorem z2h_idempotent_total (s : String) :
    z2h (z2h s) = z2h s ∧ z2h "" = "" ∧ z2hOpt none = none :=
  ⟨z2h_idem s, rfl, rfl⟩

/-- C7: for each weekday in the fixed set 月/火/水/木/金/土/日, the
weekday-only search selects exactly the courses whose weekday/period
field starts with that token; and the request weekday="月", period="3"
on the catalog `[mathCourse, tueCourse]` (slots "月3-4" and "火3-4")
returns exactly the course with slot "月3-4". -/
theorem weekday_filter_prefix (wd : String)
    (hwd : wd ∈ ["月", "火", "水", "木", "金", "土", "日"])
    (cat : List Course) (c : Course) :
    (c ∈ searchResult cat (wdOnly wd) ↔
      c ∈ cat ∧ specStartsWith wd c.slot = true)
    ∧ searchResult [mathCourse, tueCourse] ⟨"", "", "", "月", "3"⟩ = [mathCourse] := by
  constructor
  · fin_cases hwd
    · exact wdOnly_single "月" '月' (by decide) (by decide) (by decide) cat c
    · exact wdOnly_single "火" '火' (by decide) (by decide) (by decide) cat c
    · exact wdOnly_single "水" '水' (by decide) (by decide) (by decide) cat c
    · exact wdOnly_single "木" '木' (by decide) (by decide) (by decide) cat c
    · exact wdOnly_single "金" '金' (by decide) (by decide) (by decide) cat c
    · exact wdOnly_single "土" '土' (by decide) (by decide) (by decide) cat c
    · exact wdOnly_single "日" '日' (by decide) (by decide) (by decide) cat c
  · decide

theorem weekday_filter_prefix_witness :
    "月" ∈ ["月", "火", "水", "木", "金", "土", "日"]
    ∧ ((mathCourse ∈ searchResult [mathCourse] (wdOnly "月") ↔
        mathCourse ∈ [mathCourse] ∧ specStartsWith "月" mathCourse.slot = true)
      ∧ searchResult [mathCourse, tueCourse] ⟨"", "", "", "月", "3"⟩ = [mathCourse]) :=
  ⟨by decide, weekday_filter_prefix "月" (by decide) [mathCourse] mathCourse⟩

/-- C8: every search result and the mypage listing are sorted ascending
by the (faculty, term, slot, title) key in plain lexical order, the
mypage listing uses the same order, and its reported total is the
length of the listed rows. -/
theorem results_sorted (cat : List Course) (a : SearchArgs) (favs : FavState) :
    List.Sorted courseLe (searchResult cat a)
    ∧ List.Sorted courseLe (mypageRows cat favs)
    ∧ mypageTotal cat favs = (mypageRows cat favs).length
    ∧ (∀ x y : Course, courseLe x y ↔
        x.faculty < y.faculty ∨ (x.faculty = y.faculty ∧
          (x.term < y.term ∨ (x.term = y.term ∧
            (x.slot < y.slot ∨ (x.slot = y.slot ∧ x.title ≤ y.title)))))) :=
  ⟨List.sorted_insertionSort courseLe _, List.sorted_insertionSort courseLe _,
    rfl, courseLe_iff⟩

/-- C9: `favorite`'s insert never consults the course catalog: for an
id that matches no course it still succeeds and stores the id, and the
stored favorite is orphaned (no mypage row ever carries it). -/
theorem favorite_add_unvalidated (cat : List Course) (favs : FavState) (i : Nat)
    (h : ∀ c ∈ cat, c.id ≠ i) :
    i ∈ favAdd favs i
    ∧ ∀ c ∈ mypageRows cat (favAdd favs i), c.id ≠ i := by
  refine ⟨mem_favAdd_self favs i, ?_⟩
  intro c hc
  exact h c ((mem_mypageRows cat _ c).mp hc).1

theorem favorite_add_unvalidated_witness :
    (∀ c ∈ [mathCourse], c.id ≠ 99)
    ∧ (99 ∈ favAdd [] 99
        ∧ ∀ c ∈ mypageRows [mathCourse] (favAdd [] 99), c.id ≠ 99) :=
  ⟨by decide, favorite_add_unvalidated [mathCourse] [] 99 (by decide)⟩

/-- C10: every row the mypage listing returns corresponds to a
favorited id with a matching course in the catalog; an orphaned
favorite contributes no row (and hence does not count towards the
reported total, which is the number of listed rows), while its row in
the favorites store remains. -/
theorem mypage_omits_orphans (cat : List Course) (favs : FavState) (f : Nat)
    (hf : f ∈ favs) (h : ∀ c ∈ cat, c.id ≠ f) :
    (∀ c ∈ mypageRows cat favs, c ∈ cat ∧ c.id ∈ favs)
    ∧ (∀ c ∈ mypageRows cat favs, c.id ≠ f)
    ∧ mypageTotal cat favs = (mypageRows cat favs).length
    ∧ f ∈ favs := by
  refine ⟨?_, ?_, rfl, hf⟩
  · intro c hc
    exact (mem_mypageRows cat favs c).mp hc
  · intro c hc
    exact h c ((mem_mypageRows cat favs c).mp hc).1

theorem mypage_omits_orphans_witness :
    99 ∈ [99]
    ∧ (∀ c ∈ [mathCourse], c.id ≠ 99)
    ∧ ((∀ c ∈ mypageRows [mathCourse] [99], c ∈ [mathCourse] ∧ c.id ∈ [99])
        ∧ (∀ c ∈ mypageRows [mathCourse] [99], c.id ≠ 99)
        ∧ mypageTotal [mathCourse] [99] = (mypageRows [mathCourse] [99]).length
        ∧ 99 ∈ [99]) :=
  ⟨by decide, by decide,
    mypage_omits_orphans [mathCourse] [99] 99 (by decide) (by decide)⟩
